import Mathlib

/-!
Verification of the m365 CLI command framework and of the AAD/Teams commands
built on it: option-set enforcement, the validation pipeline, destructive
confirmation gating, lookup error messages, the local registration file
writers, and the admin-consent fan-out.

Conventions of the embedding: optional string-valued command options are
modelled as Option String, where presence (JS truthiness) is Option.isSome;
a JS string interpolation of an absent value renders as "undefined", mirrored
by optStr; HTTP responses are passed in as explicit lists (the response value
array), and filesystem and prompt interactions are passed in as explicit
oracle values, so every embedded operation is a pure function of its inputs.
-/

namespace M365

/-- JS Array.prototype.join with the given separator. -/
def joinSep (sep : String) : List String → String
  | [] => ""
  | [x] => x
  | x :: y :: rest => x ++ sep ++ joinSep sep (y :: rest)

/-- JS string interpolation of a possibly absent value: an absent value
renders as the string undefined. -/
def optStr : Option String → String
  | some s => s
  | none => "undefined"

/-- Does the first character list occur at the head of the second? -/
def headMatch : List Char → List Char → Bool
  | [], _ => true
  | _ :: _, [] => false
  | a :: as, b :: bs => a == b && headMatch as bs

/-- Does the first character list occur contiguously anywhere in the second? -/
def subMatch (needle : List Char) : List Char → Bool
  | [] => needle.isEmpty
  | b :: bs => headMatch needle (b :: bs) || subMatch needle bs

/-- The message msg mentions s: s occurs in msg as a contiguous substring. -/
def mentions (msg s : String) : Bool := subMatch s.data msg.data

theorem headMatch_self_append (l t : List Char) : headMatch l (l ++ t) = true := by
  induction l with
  | nil => rfl
  | cons a as ih => simp [headMatch, ih]

theorem subMatch_here (l post : List Char) : subMatch l (l ++ post) = true := by
  cases h : l ++ post with
  | nil => cases List.append_eq_nil.mp h with
    | intro h1 h2 => subst h1; simp [subMatch, List.isEmpty]
  | cons b bs =>
    rw [subMatch, ← h, headMatch_self_append]
    simp

theorem subMatch_cons (n : List Char) (c : Char) (h : List Char)
    (hs : subMatch n h = true) : subMatch n (c :: h) = true := by
  rw [subMatch, hs]
  simp

theorem subMatch_append_pre (pre n post : List Char) :
    subMatch n (pre ++ (n ++ post)) = true := by
  induction pre with
  | nil => simpa using subMatch_here n post
  | cons c cs ih => simpa using subMatch_cons n c (cs ++ (n ++ post)) ih

theorem subMatch_append_of (pre : List Char) (n h : List Char)
    (hs : subMatch n h = true) : subMatch n (pre ++ h) = true := by
  induction pre with
  | nil => simpa using hs
  | cons c cs ih => simpa using subMatch_cons n c (cs ++ h) ih

theorem mentions_concat (p s q : String) : mentions (p ++ s ++ q) s = true := by
  have h : (p ++ s ++ q).data = p.data ++ (s.data ++ q.data) := by
    simp [String.data_append]
  rw [mentions, h]
  exact subMatch_append_pre p.data s.data q.data

/-- Each element of a list occurs as a substring of the join of the list. -/
theorem subMatch_joinSep (sep : String) (set : List String) (o : String)
    (ho : o ∈ set) : subMatch o.data (joinSep sep set).data = true := by
  induction set with
  | nil => cases ho
  | cons x rest ih =>
    cases rest with
    | nil =>
      have hx : o = x := by simpa using ho
      subst hx
      simpa using subMatch_here o.data []
    | cons y rs =>
      rw [List.mem_cons] at ho
      cases ho with
      | inl hx =>
        subst hx
        show subMatch o.data (o ++ sep ++ joinSep sep (y :: rs)).data = true
        have h : (o ++ sep ++ joinSep sep (y :: rs)).data =
            o.data ++ (sep.data ++ (joinSep sep (y :: rs)).data) := by
          simp [String.data_append]
        rw [h]
        simpa using subMatch_append_pre [] o.data (sep.data ++ (joinSep sep (y :: rs)).data)
      | inr hr =>
        have hrest : subMatch o.data (joinSep sep (y :: rs)).data = true := ih hr
        show subMatch o.data (x ++ sep ++ joinSep sep (y :: rs)).data = true
        have h : (x ++ sep ++ joinSep sep (y :: rs)).data =
            (x.data ++ sep.data) ++ (joinSep sep (y :: rs)).data := by
          simp [String.data_append]
        rw [h]
        exact subMatch_append_of (x.data ++ sep.data) _ _ hrest

theorem headMatch_append (n l post : List Char)
    (hh : headMatch n l = true) : headMatch n (l ++ post) = true := by
  induction n generalizing l with
  | nil => rfl
  | cons a as ih =>
    cases l with
    | nil => cases hh
    | cons b bs =>
      rw [headMatch] at hh
      rcases Bool.and_eq_true_iff.mp hh with ⟨h1, h2⟩
      rw [List.cons_append, headMatch, h1, ih bs h2]
      rfl

theorem subMatch_append_post (n h post : List Char)
    (hs : subMatch n h = true) : subMatch n (h ++ post) = true := by
  induction h with
  | nil =>
    rw [subMatch] at hs
    have : n = [] := by simpa [List.isEmpty_iff] using hs
    subst this
    simpa using subMatch_here [] post
  | cons c cs ih =>
    rw [subMatch] at hs
    rw [List.cons_append, subMatch]
    rcases Bool.or_eq_true_iff.mp hs with hh | ht
    · have := headMatch_append n (c :: cs) post hh
      rw [List.cons_append] at this
      rw [this]
      simp
    · rw [ih ht]
      simp

theorem mentions_joinSep_mid (p sep q : String) (set : List String) (o : String)
    (ho : o ∈ set) : mentions (p ++ joinSep sep set ++ q) o = true := by
  have h : (p ++ joinSep sep set ++ q).data =
      p.data ++ ((joinSep sep set).data ++ q.data) := by
    simp [String.data_append]
  rw [mentions, h]
  apply subMatch_append_of
  apply subMatch_append_post
  exact subMatch_joinSep sep set o ho

theorem mentions_joinSep_end (p sep : String) (set : List String) (o : String)
    (ho : o ∈ set) : mentions (p ++ joinSep sep set) o = true := by
  have h : (p ++ joinSep sep set).data = p.data ++ (joinSep sep set).data := by
    simp [String.data_append]
  rw [mentions, h]
  apply subMatch_append_of
  exact subMatch_joinSep sep set o ho

/-- Modelled from the spec: the OptionSetEnforcer of the framework base
Command class is not among the provided sources (the sources only declare
each command's option sets). For one OptionSet it counts the members present
in the resolved options: zero present or more than one present fails with a
message naming the members, exactly one present passes. -/
def optionSetCheck (set present : List String) : Option String :=
  let cnt := (set.filter (fun o => present.contains o)).length
  if cnt = 0 then some ("Specify one of: " ++ joinSep ", " set)
  else if 1 < cnt then some ("Specify one of " ++ joinSep ", " set ++ " but not multiple")
  else none

/-- Modelled from the spec: a command may declare several OptionSets; each is
checked independently and all of them must pass. -/
def enforceOptionSets (sets : List (List String)) (present : List String) : Option String :=
  match sets with
  | [] => none
  | s :: rest =>
    match optionSetCheck s present with
    | some m => some m
    | none => enforceOptionSets rest present

/-- Option sets declared by TeamsChannelGetCommand in channel-get.ts. -/
def teamsChannelGetOptionSets : List (List String) :=
  [["teamId", "teamName"], ["channelId", "channelName", "primary"]]

/-- Option set declared by AadSpGetCommand. -/
def aadSpGetOptionSets : List (List String) :=
  [["appId", "displayName", "objectId"]]

/-- Option set declared by AadAppGetCommand in app-get.ts. -/
def aadAppGetOptionSets : List (List String) :=
  [["appId", "objectId", "name"]]

theorem enforceOptionSets_eq_none_iff (sets : List (List String)) (present : List String) :
    enforceOptionSets sets present = none ↔
      ∀ s ∈ sets, optionSetCheck s present = none := by
  induction sets with
  | nil => simp [enforceOptionSets]
  | cons s rest ih =>
    cases h : optionSetCheck s present with
    | none => simp [enforceOptionSets, h, ih]
    | some m => simp [enforceOptionSets, h]

/-- C1: an OptionSet check passes exactly when exactly one member of the set
is present; a failing check produces a message naming every member of the
set; several OptionSets on one descriptor are checked independently and all
must pass, as in the two sets of channel-get.ts. -/
theorem option_set_enforcement (set present : List String) :
    (optionSetCheck set present = none ↔
      (set.filter (fun o => present.contains o)).length = 1) ∧
    (∀ m, optionSetCheck set present = some m →
      ∀ o ∈ set, mentions m o = true) ∧
    (∀ sets, enforceOptionSets sets present = none ↔
      ∀ s ∈ sets, optionSetCheck s present = none) ∧
    (enforceOptionSets teamsChannelGetOptionSets present = none ↔
      (optionSetCheck ["teamId", "teamName"] present = none ∧
       optionSetCheck ["channelId", "channelName", "primary"] present = none)) := by
  refine ⟨?_, ?_, fun sets => enforceOptionSets_eq_none_iff sets present, ?_⟩
  · simp only [optionSetCheck]
    split_ifs with h0 h1
    · simp only [false_iff]
      omega
    · simp only [false_iff]
      omega
    · simp only [true_iff]
      omega
  · intro m hm o ho
    simp only [optionSetCheck] at hm
    split_ifs at hm with h0 h1
    · cases hm
      exact mentions_joinSep_end "Specify one of: " ", " set o ho
    · cases hm
      exact mentions_joinSep_mid "Specify one of " ", " " but not multiple" set o ho
  · rw [enforceOptionSets_eq_none_iff]
    simp [teamsChannelGetOptionSets]

/-- C1 witness: on the channel-get option sets, supplying exactly channelId
passes, and a zero-present failure message mentions the member channelName. -/
theorem option_set_enforcement_witness :
    optionSetCheck ["channelId", "channelName", "primary"] ["channelId"] = none ∧
    mentions "Specify one of: channelId, channelName, primary" "channelName" = true := by
  constructor
  · exact (option_set_enforcement ["channelId", "channelName", "primary"]
      ["channelId"]).1.mpr (by decide)
  · exact (option_set_enforcement ["channelId", "channelName", "primary"] []).2.1
      "Specify one of: channelId, channelName, primary" (by decide)
      "channelName" (by decide)

/-- Modelled from the spec: the ValidationPipeline of the framework base
Command class is not among the provided sources (the sources only register
each command's validators). A validator reads the resolved options and
yields pass (none) or a human-readable failure string (some). pipelineAux
runs the validators sequentially starting at index idx and returns the
indices of the validators that ran together with the first failure, if any;
the first failure aborts the pipeline at once. -/
def pipelineAux {α : Type} (idx : Nat) : List (α → Option String) → α → List Nat × Option String
  | [], _ => ([], none)
  | v :: rest, args =>
    match v args with
    | some msg => ([idx], some msg)
    | none =>
      let r := pipelineAux (idx + 1) rest args
      (idx :: r.1, r.2)

/-- Modelled from the spec: run the whole registered validator list in
registration order. -/
def runPipeline {α : Type} (vs : List (α → Option String)) (args : α) : List Nat × Option String :=
  pipelineAux 0 vs args

/-- Modelled from the spec: the CommandExecutor runs the command action only
when the pipeline passes, and surfaces the first failure string verbatim as
the invocation error. -/
def executeCommand {α β : Type} (vs : List (α → Option String)) (action : α → β)
    (args : α) : Except String β :=
  match (runPipeline vs args).2 with
  | some msg => Except.error msg
  | none => Except.ok (action args)

theorem map_add_range_succ (idx n : Nat) :
    idx :: (List.range n).map (· + (idx + 1)) = (List.range (n + 1)).map (· + idx) := by
  rw [List.range_succ_eq_map]
  simp only [List.map_cons, List.map_map, Nat.zero_add]
  congr 1
  apply List.map_congr_left
  intro i _
  simp only [Function.comp_apply]
  omega

theorem pipelineAux_all_pass {α : Type} (idx : Nat) (vs : List (α → Option String))
    (args : α) (h : ∀ v ∈ vs, v args = none) :
    pipelineAux idx vs args = ((List.range vs.length).map (· + idx), none) := by
  induction vs generalizing idx with
  | nil => rfl
  | cons v rest ih =>
    have hv : v args = none := h v (List.mem_cons_self v rest)
    have hr := ih (idx + 1) (fun w hw => h w (List.mem_cons_of_mem v hw))
    simp only [pipelineAux, hv, hr, List.length_cons]
    rw [← map_add_range_succ idx rest.length]

theorem pipelineAux_first_fail {α : Type} (idx k : Nat) (msg : String)
    (vs : List (α → Option String)) (args : α) (hk : k < vs.length)
    (hpass : ∀ i (hik : i < k), vs.get ⟨i, lt_trans hik hk⟩ args = none)
    (hfail : vs.get ⟨k, hk⟩ args = some msg) :
    pipelineAux idx vs args = ((List.range (k + 1)).map (· + idx), some msg) := by
  induction vs generalizing idx k with
  | nil => cases hk
  | cons v rest ih =>
    cases k with
    | zero =>
      have hv : v args = some msg := hfail
      simp [pipelineAux, hv, List.range_succ_eq_map]
    | succ j =>
      have hv : v args = none := hpass 0 (Nat.succ_pos j)
      have hj : j < rest.length := Nat.lt_of_succ_lt_succ hk
      have hr := ih (idx + 1) j hj
        (fun i hij => hpass (i + 1) (Nat.succ_lt_succ hij))
        hfail
      simp only [pipelineAux, hv, hr]
      rw [← map_add_range_succ idx (j + 1)]

/-- C2: validators run sequentially in registration order; when validator k
is the first to return a failure string, exactly the validators 0..k ran
(those after k never ran), the surfaced error is validator k's string
verbatim, and the action does not run; when every validator passes, all of
them ran and the action runs. -/
theorem validation_pipeline_first_failure {α : Type} (vs : List (α → Option String))
    (args : α) :
    (∀ (k : Nat) (msg : String) (hk : k < vs.length),
      (∀ i (hik : i < k), vs.get ⟨i, lt_trans hik hk⟩ args = none) →
      vs.get ⟨k, hk⟩ args = some msg →
      runPipeline vs args = (List.range (k + 1), some msg) ∧
      (∀ i : Nat, i ∈ (runPipeline vs args).1 ↔ i < k + 1) ∧
      (∀ (β : Type) (action : α → β), executeCommand vs action args = Except.error msg)) ∧
    ((∀ v ∈ vs, v args = none) →
      runPipeline vs args = (List.range vs.length, none) ∧
      (∀ (β : Type) (action : α → β),
        executeCommand vs action args = Except.ok (action args))) := by
  constructor
  · intro k msg hk hpass hfail
    have h := pipelineAux_first_fail 0 k msg vs args hk hpass hfail
    have hrp : runPipeline vs args = (List.range (k + 1), some msg) := by
      rw [runPipeline, h]
      congr 1
      simpa using List.map_id (List.range (k + 1))
    refine ⟨hrp, ?_, ?_⟩
    · intro i
      rw [hrp]
      exact List.mem_range
    · intro β action
      rw [executeCommand, hrp]
  · intro h
    have hp := pipelineAux_all_pass 0 vs args h
    have hrp : runPipeline vs args = (List.range vs.length, none) := by
      rw [runPipeline, hp]
      congr 1
      simpa using List.map_id (List.range vs.length)
    refine ⟨hrp, ?_⟩
    intro β action
    rw [executeCommand, hrp]

/-- C2 witness: a two-validator pipeline where the second validator is the
first to fail runs exactly validators 0 and 1 and surfaces the second
validator's string; the action does not run. -/
theorem validation_pipeline_first_failure_witness :
    runPipeline [fun _ => (none : Option String),
      fun _ => (some "1 is not a valid GUID" : Option String)] 0 =
        ([0, 1], some "1 is not a valid GUID") ∧
    executeCommand [fun _ => (none : Option String),
      fun _ => (some "1 is not a valid GUID" : Option String)] (fun n => n + 1) 0 =
        Except.error "1 is not a valid GUID" := by
  have h := (validation_pipeline_first_failure
    [fun _ => (none : Option String),
     fun _ => (some "1 is not a valid GUID" : Option String)] 0).1 1
    "1 is not a valid GUID" (by simp)
    (by
      intro i hik
      have : i = 0 := by omega
      subst this
      rfl)
    rfl
  exact ⟨h.1, h.2.2 Nat (fun n => n + 1)⟩

/-- An Azure AD group as consumed by team-remove.ts and channel-get.ts:
its object id and its resourceProvisioningOptions. -/
structure GroupInfo where
  id : String
  resourceProvisioningOptions : List String

/-- The options of TeamsTeamRemoveCommand in team-remove.ts. The confirm
flag is a boolean option, absent meaning false. -/
structure TeamsTeamRemoveOptions where
  id : Option String
  name : Option String
  teamId : Option String
  confirm : Bool

/-- Oracle for the external effects reached by team-remove.ts: the group
lookup by display name, the answer the interactive prompt returns, and the
outcome of the DELETE request at a given url. -/
structure TeamsTeamRemoveEnv where
  groupByName : String → Except String GroupInfo
  promptContinue : Bool
  deleteOutcome : String → Except String Unit

/-- One interactive confirmation request as issued through Cli.prompt. -/
structure PromptReq where
  promptType : String
  name : String
  defaultAnswer : Bool
  message : String

/-- Observable trace of one invocation: confirmation requests issued, DELETE
request urls issued, result-channel payloads, diagnostic warnings, and the
final outcome. -/
structure InvocationTrace where
  prompts : List PromptReq
  deleteUrls : List String
  logs : List String
  warnings : List String
  outcome : Except String Unit

/-- team-remove.ts commandAction lines 109-113: when the deprecated teamId
option is supplied its value is copied into id. -/
def applyTeamIdAlias (opts : TeamsTeamRemoveOptions) : TeamsTeamRemoveOptions :=
  match opts.teamId with
  | some t => { opts with id := some t }
  | none => opts

/-- TeamsTeamRemoveCommand.getTeamId: a given id resolves immediately;
otherwise the group is looked up by display name and rejected when its
resourceProvisioningOptions does not contain Team. -/
def getTeamId (opts : TeamsTeamRemoveOptions) (env : TeamsTeamRemoveEnv) :
    Except String String :=
  match opts.id with
  | some i => Except.ok i
  | none =>
    match env.groupByName (optStr opts.name) with
    | Except.error e => Except.error e
    | Except.ok group =>
      if group.resourceProvisioningOptions.contains "Team" then Except.ok group.id
      else Except.error "The specified team does not exist in the Microsoft Teams"

/-- The removeTeam closure of team-remove.ts commandAction: resolve the team
id, then issue the DELETE request; returns the urls of DELETE requests
issued and the outcome. -/
def removeTeamCall (opts : TeamsTeamRemoveOptions) (env : TeamsTeamRemoveEnv) :
    List String × Except String Unit :=
  match getTeamId opts env with
  | Except.error e => ([], Except.error e)
  | Except.ok teamId =>
    let url := "v1.0/groups/" ++ teamId
    ([url], env.deleteOutcome url)

/-- TeamsTeamRemoveCommand.commandAction, team-remove.ts lines 108-148: with
the confirm flag the team is removed at once; without it a yes/no prompt
with default answer false is issued first, and a negative answer skips the
removal entirely and ends the invocation successfully. -/
def teamsTeamRemoveAction (opts : TeamsTeamRemoveOptions) (env : TeamsTeamRemoveEnv) :
    InvocationTrace :=
  let warns : List String :=
    match opts.teamId with
    | some _ => ["Option \x27teamId\x27 is deprecated. Please use \x27id\x27 instead."]
    | none => []
  let opts1 := applyTeamIdAlias opts
  let rt := removeTeamCall opts1 env
  if opts.confirm then
    { prompts := [], deleteUrls := rt.1, logs := [], warnings := warns, outcome := rt.2 }
  else
    let req : PromptReq :=
      { promptType := "confirm", name := "continue", defaultAnswer := false,
        message := "Are you sure you want to remove the team " ++
          optStr opts.teamId ++ "?" }
    if env.promptContinue then
      { prompts := [req], deleteUrls := rt.1, logs := [], warnings := warns,
        outcome := rt.2 }
    else
      { prompts := [req], deleteUrls := [], logs := [], warnings := warns,
        outcome := Except.ok () }

/-- C3: without the confirm flag exactly one confirmation request with
default answer false is issued, and a negative answer leaves the DELETE
never invoked, the result channel empty and the outcome a quiet success;
with the confirm flag no confirmation request is issued and, whenever the
team id resolves, the DELETE request is issued exactly once. -/
theorem confirmation_gate (opts : TeamsTeamRemoveOptions) (env : TeamsTeamRemoveEnv) :
    (opts.confirm = false →
      (teamsTeamRemoveAction opts env).prompts.map PromptReq.defaultAnswer = [false] ∧
      (env.promptContinue = false →
        (teamsTeamRemoveAction opts env).deleteUrls = [] ∧
        (teamsTeamRemoveAction opts env).logs = [] ∧
        (teamsTeamRemoveAction opts env).outcome = Except.ok ())) ∧
    (opts.confirm = true →
      (teamsTeamRemoveAction opts env).prompts = [] ∧
      ∀ tid, getTeamId (applyTeamIdAlias opts) env = Except.ok tid →
        (teamsTeamRemoveAction opts env).deleteUrls = ["v1.0/groups/" ++ tid]) := by
  constructor
  · intro hc
    cases hp : env.promptContinue with
    | false =>
      refine ⟨?_, fun _ => ⟨?_, ?_, ?_⟩⟩ <;>
        simp [teamsTeamRemoveAction, hc, hp]
    | true =>
      refine ⟨?_, fun h => nomatch h⟩
      simp [teamsTeamRemoveAction, hc, hp]
  · intro hc
    constructor
    · simp [teamsTeamRemoveAction, hc]
    · intro tid htid
      simp [teamsTeamRemoveAction, hc, removeTeamCall, htid]

/-- C3 witness: a concrete declined invocation issues one default-negative
prompt and no DELETE, and a concrete bypassed invocation issues no prompt
and exactly one DELETE.  -/
theorem confirmation_gate_witness :
    (teamsTeamRemoveAction
      { id := some "g1", name := none, teamId := none, confirm := false }
      { groupByName := fun _ => Except.error "not used", promptContinue := false,
        deleteOutcome := fun _ => Except.ok () }).deleteUrls = [] ∧
    (teamsTeamRemoveAction
      { id := some "g1", name := none, teamId := none, confirm := true }
      { groupByName := fun _ => Except.error "not used", promptContinue := false,
        deleteOutcome := fun _ => Except.ok () }).deleteUrls = ["v1.0/groups/g1"] := by
  constructor
  · exact (((confirmation_gate
      { id := some "g1", name := none, teamId := none, confirm := false }
      { groupByName := fun _ => Except.error "not used", promptContinue := false,
        deleteOutcome := fun _ => Except.ok () }).1 rfl).2 rfl).1
  · exact ((confirmation_gate
      { id := some "g1", name := none, teamId := none, confirm := true }
      { groupByName := fun _ => Except.error "not used", promptContinue := false,
        deleteOutcome := fun _ => Except.ok () }).2 rfl).2 "g1" rfl

theorem mentions_concat2 (p r s q : String) : mentions (p ++ (r ++ s) ++ q) s = true := by
  have h : (p ++ (r ++ s) ++ q).data = (p.data ++ r.data) ++ (s.data ++ q.data) := by
    simp [String.data_append]
  rw [mentions, h]
  exact subMatch_append_pre _ _ _

/-- The options of AadSpGetCommand. -/
structure AadSpGetOptions where
  appId : Option String
  displayName : Option String
  objectId : Option String

/-- The options of AadAppGetCommand in app-get.ts. -/
structure AadAppGetOptions where
  appId : Option String
  objectId : Option String
  name : Option String
  save : Bool

/-- The options of TeamsChannelGetCommand in channel-get.ts. -/
structure TeamsChannelGetOptions where
  teamId : Option String
  teamName : Option String
  channelId : Option String
  channelName : Option String
  primary : Bool

/-- AadSpGetCommand.getSpId over the service principal response (the list of
returned ids, in service order): a given objectId resolves immediately; an
empty response is rejected with a fixed message; a response of more than one
item (the source tests the full length against one) is rejected with a
message interpolating displayName and the id array, which JS renders
comma-joined with no space. -/
def getSpId (opts : AadSpGetOptions) (response : List String) : Except String String :=
  match opts.objectId with
  | some o => Except.ok o
  | none =>
    match response with
    | [] => Except.error "The specified Azure AD app does not exist"
    | first :: rest =>
      if 0 < rest.length then
        Except.error ("Multiple Azure AD apps with name " ++ optStr opts.displayName ++
          " found: " ++ joinSep "," (first :: rest))
      else Except.ok first

/-- AadAppGetCommand.getAppObjectId, app-get.ts lines 91-124, over the
application response (the list of returned ids, in service order): exactly
one match resolves; zero matches are rejected with a message echoing the
identifier used (ID appId or name); several matches are rejected with
a message joining the candidate ids with a comma and a space. -/
def getAppObjectId (opts : AadAppGetOptions) (response : List String) : Except String String :=
  match opts.objectId with
  | some o => Except.ok o
  | none =>
    match response with
    | [r] => Except.ok r
    | [] =>
      let applicationIdentifier :=
        match opts.appId with
        | some a => "ID " ++ a
        | none => "name " ++ optStr opts.name
      Except.error ("No Azure AD application registration with " ++
        applicationIdentifier ++ " found")
    | rs =>
      Except.error ("Multiple Azure AD application registration with name " ++
        optStr opts.name ++ " found. Please disambiguate (app object IDs): " ++
        joinSep ", " rs)

/-- TeamsChannelGetCommand.getChannelId, channel-get.ts lines 118-146, over
the channel response (the list of returned channel ids): a given channelId
resolves immediately, primary resolves to the empty id, otherwise the first
item of the response is taken; only an empty response is rejected, with a
fixed message. -/
def getChannelId (opts : TeamsChannelGetOptions) (response : List String) :
    Except String String :=
  match opts.channelId with
  | some c => Except.ok c
  | none =>
    if opts.primary then Except.ok ""
    else
      match response with
      | [] => Except.error "The specified channel does not exist in the Microsoft Teams team"
      | c :: _ => Except.ok c

/-- C4 counterexample: the sp-get lookup by displayName X over a zero-match
response fails with a fixed message that does not mention X, so not every
zero-match lookup echoes the identifier used. -/
theorem notfound_echo_counterexample :
    getSpId { appId := none, displayName := some "X", objectId := none } [] =
      Except.error "The specified Azure AD app does not exist" ∧
    mentions "The specified Azure AD app does not exist" "X" = false := by
  exact ⟨rfl, rfl⟩

/-- C4 amended: the app-get zero-match lookup fails with a NotFound message
echoing the identifier used (ID appId when appId was used, name otherwise),
while the sp-get and channel-get zero-match lookups fail with fixed messages
that echo no identifier. -/
theorem notfound_echo_amended :
    (∀ (opts : AadAppGetOptions) (a : String), opts.objectId = none →
      opts.appId = some a →
      getAppObjectId opts [] =
        Except.error ("No Azure AD application registration with " ++
          ("ID " ++ a) ++ " found") ∧
      mentions ("No Azure AD application registration with " ++
          ("ID " ++ a) ++ " found") a = true) ∧
    (∀ (opts : AadAppGetOptions) (n : String), opts.objectId = none →
      opts.appId = none → opts.name = some n →
      getAppObjectId opts [] =
        Except.error ("No Azure AD application registration with " ++
          ("name " ++ n) ++ " found") ∧
      mentions ("No Azure AD application registration with " ++
          ("name " ++ n) ++ " found") n = true) ∧
    (∀ opts : AadSpGetOptions, opts.objectId = none →
      getSpId opts [] = Except.error "The specified Azure AD app does not exist") ∧
    (∀ opts : TeamsChannelGetOptions, opts.channelId = none → opts.primary = false →
      getChannelId opts [] =
        Except.error "The specified channel does not exist in the Microsoft Teams team") := by
  refine ⟨?_, ?_, ?_, ?_⟩
  · intro opts a hobj happ
    refine ⟨?_, mentions_concat2 "No Azure AD application registration with "
      "ID " a " found"⟩
    simp [getAppObjectId, hobj, happ]
  · intro opts n hobj happ hn
    refine ⟨?_, mentions_concat2 "No Azure AD application registration with "
      "name " n " found"⟩
    simp [getAppObjectId, hobj, happ, hn, optStr]
  · intro opts hobj
    simp [getSpId, hobj]
  · intro opts hch hpr
    simp [getChannelId, hch, hpr]

/-- C4 amended witness: a concrete app-get lookup by appId over a zero-match
response produces a message mentioning the appId. -/
theorem notfound_echo_amended_witness :
    getAppObjectId
        { appId := some "ff001122-aabb-ccdd-eeff-001122334455",
          objectId := none, name := none, save := false } [] =
      Except.error ("No Azure AD application registration with " ++
        ("ID " ++ "ff001122-aabb-ccdd-eeff-001122334455") ++ " found") ∧
    mentions ("No Azure AD application registration with " ++
        ("ID " ++ "ff001122-aabb-ccdd-eeff-001122334455") ++ " found")
      "ff001122-aabb-ccdd-eeff-001122334455" = true := by
  exact notfound_echo_amended.1
    { appId := some "ff001122-aabb-ccdd-eeff-001122334455",
      objectId := none, name := none, save := false }
    "ff001122-aabb-ccdd-eeff-001122334455" rfl rfl

/-- C5 counterexample: the app-get multiple-match message joins the
candidate ids with a comma and a space, so it does not contain the strictly
comma-joined id1,id2. -/
theorem ambiguous_join_counterexample :
    getAppObjectId
        { appId := none, objectId := none, name := some "My app",
          save := false } ["id1", "id2"] =
      Except.error ("Multiple Azure AD application registration with name " ++
        "My app" ++ " found. Please disambiguate (app object IDs): " ++
        "id1, id2") ∧
    mentions ("Multiple Azure AD application registration with name " ++
      "My app" ++ " found. Please disambiguate (app object IDs): " ++
      "id1, id2") "id1,id2" = false := by
  exact ⟨rfl, rfl⟩

/-- C5 amended: on a multiple-match response the sp-get lookup fails with a
message listing all candidate ids in service order joined with a bare comma,
the app-get lookup fails with a message listing them in service order joined
with a comma and a space (each candidate id is mentioned in either message),
and the channel-get lookup by name does not detect multiple matches at all:
it resolves to the first candidate without any error. -/
theorem ambiguous_match_amended :
    (∀ (opts : AadSpGetOptions) (first : String) (rest : List String),
      opts.objectId = none → 0 < rest.length →
      getSpId opts (first :: rest) =
        Except.error ("Multiple Azure AD apps with name " ++ optStr opts.displayName ++
          " found: " ++ joinSep "," (first :: rest)) ∧
      ∀ o ∈ first :: rest,
        mentions ("Multiple Azure AD apps with name " ++ optStr opts.displayName ++
          " found: " ++ joinSep "," (first :: rest)) o = true) ∧
    (∀ (opts : AadAppGetOptions) (r1 r2 : String) (rest : List String),
      opts.objectId = none →
      getAppObjectId opts (r1 :: r2 :: rest) =
        Except.error ("Multiple Azure AD application registration with name " ++
          optStr opts.name ++ " found. Please disambiguate (app object IDs): " ++
          joinSep ", " (r1 :: r2 :: rest)) ∧
      ∀ o ∈ r1 :: r2 :: rest,
        mentions ("Multiple Azure AD application registration with name " ++
          optStr opts.name ++ " found. Please disambiguate (app object IDs): " ++
          joinSep ", " (r1 :: r2 :: rest)) o = true) ∧
    (∀ (opts : TeamsChannelGetOptions) (c : String) (rest : List String),
      opts.channelId = none → opts.primary = false →
      getChannelId opts (c :: rest) = Except.ok c) := by
  refine ⟨?_, ?_, ?_⟩
  · intro opts first rest hobj hrest
    constructor
    · simp [getSpId, hobj, hrest]
    · intro o ho
      exact mentions_joinSep_end
        ("Multiple Azure AD apps with name " ++ optStr opts.displayName ++ " found: ")
        "," (first :: rest) o ho
  · intro opts r1 r2 rest hobj
    constructor
    · simp [getAppObjectId, hobj]
    · intro o ho
      exact mentions_joinSep_end
        ("Multiple Azure AD application registration with name " ++ optStr opts.name ++
          " found. Please disambiguate (app object IDs): ")
        ", " (r1 :: r2 :: rest) o ho
  · intro opts c rest hch hpr
    simp [getChannelId, hch, hpr]

/-- C5 amended witness: concrete two-match responses give the sp-get message
with a bare comma join, the app-get message with a comma-space join, and a
channel-get resolution to the first candidate. -/
theorem ambiguous_match_amended_witness :
    getSpId { appId := none, displayName := some "My app", objectId := none }
        ["id1", "id2"] =
      Except.error ("Multiple Azure AD apps with name " ++ "My app" ++
        " found: " ++ joinSep "," ["id1", "id2"]) ∧
    getAppObjectId
        { appId := none, objectId := none, name := some "My app",
          save := false } ["id1", "id2"] =
      Except.error ("Multiple Azure AD application registration with name " ++
        "My app" ++ " found. Please disambiguate (app object IDs): " ++
        joinSep ", " ["id1", "id2"]) ∧
    getChannelId
        { teamId := some "t", teamName := none, channelId := none,
          channelName := some "General2", primary := false } ["c1", "c2"] =
      Except.ok "c1" := by
  refine ⟨?_, ?_, ?_⟩
  · exact (ambiguous_match_amended.1
      { appId := none, displayName := some "My app", objectId := none }
      "id1" ["id2"] rfl (by simp)).1
  · exact (ambiguous_match_amended.2.1
      { appId := none, objectId := none, name := some "My app", save := false }
      "id1" "id2" [] rfl).1
  · exact ambiguous_match_amended.2.2
      { teamId := some "t", teamName := none, channelId := none,
        channelName := some "General2", primary := false }
      "c1" ["c2"] rfl rfl

/-- One record of the local .m365rc.json registration file. -/
structure M365App where
  appId : String
  name : String
deriving DecidableEq

/-- The parsed shape of .m365rc.json: the apps property may be absent. -/
structure M365Rc where
  apps : Option (List M365App)
deriving DecidableEq

/-- What reading .m365rc.json produced when the file exists: the read or the
JSON parse threw, the contents were empty (the source keeps the fresh empty
object then), or the contents parsed. -/
inductive ReadOutcome where
  | failure (e : String)
  | emptyFile
  | parsed (rc : M365Rc)
deriving DecidableEq

/-- Filesystem oracle for one saveAppInfo call: whether .m365rc.json exists,
what reading it produces, and whether writing it throws. -/
structure SaveEnv where
  fileExists : Bool
  readOutcome : ReadOutcome
  writeError : Option String
deriving DecidableEq

/-- Observable outcome of one saveAppInfo call: the file contents written,
if any, the diagnostic warnings, and the value the call resolves with (both
sources always resolve with the unchanged appInfo; there is no rejection
path). -/
structure SaveOutcome (α : Type) where
  written : Option M365Rc
  warnings : List String
  result : α

/-- An Azure AD application as returned by the Graph lookup, restricted to
the fields saveAppInfo consumes. -/
structure Application where
  appId : String
  displayName : String
deriving DecidableEq

/-- The shared read phase of both saveAppInfo implementations, app-get.ts
lines 149-165 and app-add.ts lines 949-965: a missing file or an empty file
yields the fresh empty object; a read or parse throw is the error case. -/
def readM365Rc (env : SaveEnv) : Except String M365Rc :=
  if env.fileExists then
    match env.readOutcome with
    | ReadOutcome.failure e => Except.error e
    | ReadOutcome.emptyFile => Except.ok { apps := none }
    | ReadOutcome.parsed rc => Except.ok rc
  else Except.ok { apps := none }

/-- The records of .m365rc.json as both writers see them after the read
phase (empty when the file is missing, empty, or unreadable). -/
def existingApps (env : SaveEnv) : List M365App :=
  match readM365Rc env with
  | Except.ok rc => rc.apps.getD []
  | Except.error _ => []

def readWarnMsg (e : String) : String :=
  "Error reading .m365rc.json: " ++ e ++ ". Please add app info to .m365rc.json manually."

def writeWarnMsg (e : String) : String :=
  "Error writing .m365rc.json: " ++ e ++ ". Please add app info to .m365rc.json manually."

/-- AadAppGetCommand.saveAppInfo, app-get.ts lines 138-186: without the save
flag nothing happens; a read or parse failure warns and resolves; the new
record is appended and the merged set written back only when no existing
record already has the same appId; a write failure warns and resolves. The
call always resolves with the unchanged appInfo. -/
def aadAppGetSaveAppInfo (save : Bool) (appInfo : Application) (env : SaveEnv) :
    SaveOutcome Application :=
  if !save then { written := none, warnings := [], result := appInfo }
  else
    match readM365Rc env with
    | Except.error e =>
      { written := none, warnings := [readWarnMsg e], result := appInfo }
    | Except.ok rc =>
      let apps := rc.apps.getD []
      if apps.any (fun a => a.appId == appInfo.appId) then
        { written := none, warnings := [], result := appInfo }
      else
        let newRc : M365Rc :=
          { apps := some (apps ++ [{ appId := appInfo.appId, name := appInfo.displayName }]) }
        match env.writeError with
        | none => { written := some newRc, warnings := [], result := appInfo }
        | some e =>
          { written := none, warnings := [writeWarnMsg e], result := appInfo }

/-- AadAppAddCommand.saveAppInfo, app-add.ts lines 938-984: same read phase,
but the new record (appId with the command's appName) is pushed
unconditionally, with no check against existing appIds. The call always
resolves with the unchanged appInfo. -/
def aadAppAddSaveAppInfo {α : Type} (save : Bool) (appInfo : α)
    (appId appName : String) (env : SaveEnv) : SaveOutcome α :=
  if !save then { written := none, warnings := [], result := appInfo }
  else
    match readM365Rc env with
    | Except.error e =>
      { written := none, warnings := [readWarnMsg e], result := appInfo }
    | Except.ok rc =>
      let apps := rc.apps.getD []
      let newRc : M365Rc := { apps := some (apps ++ [{ appId := appId, name := appName }]) }
      match env.writeError with
      | none => { written := some newRc, warnings := [], result := appInfo }
      | some e =>
        { written := none, warnings := [writeWarnMsg e], result := appInfo }

/-- C6 counterexample: app-add's saveAppInfo, saving an appId already present
in the file, appends it again: the written set carries the identifier twice,
so the writer does not append only-if-absent and duplicates are introduced. -/
theorem duplicate_append_counterexample :
    (aadAppAddSaveAppInfo true () "11111111-1111-1111-1111-111111111111" "My app"
      { fileExists := true,
        readOutcome := ReadOutcome.parsed
          { apps := some [{ appId := "11111111-1111-1111-1111-111111111111",
                            name := "My app" }] },
        writeError := none }).written =
      some { apps := some [
        { appId := "11111111-1111-1111-1111-111111111111", name := "My app" },
        { appId := "11111111-1111-1111-1111-111111111111", name := "My app" }] } := by
  rfl

/-- C6 amended: both writers read-merge-write and never discard existing
records (whatever they write is the existing record list with the new record
appended); app-get's writer writes only when no existing record has the same
appId, so it never introduces a duplicate identifier, while app-add's writer
appends unconditionally and so can duplicate an identifier already present. -/
theorem save_merge_amended {α : Type} (save : Bool) (appInfo : Application) (b : α)
    (appId appName : String) (env : SaveEnv) :
    (∀ rc, (aadAppGetSaveAppInfo save appInfo env).written = some rc →
      rc.apps = some (existingApps env ++
        [{ appId := appInfo.appId, name := appInfo.displayName }]) ∧
      (existingApps env).all (fun a => a.appId != appInfo.appId) = true) ∧
    ((existingApps env).any (fun a => a.appId == appInfo.appId) = true →
      (aadAppGetSaveAppInfo save appInfo env).written = none) ∧
    (∀ rc, (aadAppAddSaveAppInfo save b appId appName env).written = some rc →
      rc.apps = some (existingApps env ++ [{ appId := appId, name := appName }])) := by
  refine ⟨?_, ?_, ?_⟩
  · intro rc hrc
    cases hs : save with
    | false =>
      rw [hs] at hrc
      simp [aadAppGetSaveAppInfo] at hrc
    | true =>
      rw [hs] at hrc
      cases hread : readM365Rc env with
      | error e => simp [aadAppGetSaveAppInfo, hread] at hrc
      | ok rc0 =>
        by_cases hany : (rc0.apps.getD []).any (fun a => a.appId == appInfo.appId) = true
        · simp [aadAppGetSaveAppInfo, hread, hany] at hrc
        · cases hw : env.writeError with
          | some e => simp [aadAppGetSaveAppInfo, hread, hany, hw] at hrc
          | none =>
            simp only [aadAppGetSaveAppInfo, hread, hany, hw, Bool.not_true,
              Bool.false_eq_true, if_false, if_neg, Option.some.injEq] at hrc
            subst hrc
            constructor
            · simp [existingApps, hread]
            · rw [existingApps, hread]
              rw [Bool.not_eq_true, List.any_eq_false] at hany
              rw [List.all_eq_true]
              intro a ha
              have h2 := hany a ha
              rw [beq_iff_eq] at h2
              rw [bne_iff_ne]
              exact h2
  · intro hany
    cases hs : save with
    | false => simp [aadAppGetSaveAppInfo, hs]
    | true =>
      cases hread : readM365Rc env with
      | error e => simp [aadAppGetSaveAppInfo, hs, hread]
      | ok rc0 =>
        rw [existingApps, hread] at hany
        simp [aadAppGetSaveAppInfo, hs, hread, hany]
  · intro rc hrc
    cases hs : save with
    | false =>
      rw [hs] at hrc
      simp [aadAppAddSaveAppInfo] at hrc
    | true =>
      rw [hs] at hrc
      cases hread : readM365Rc env with
      | error e => simp [aadAppAddSaveAppInfo, hread] at hrc
      | ok rc0 =>
        cases hw : env.writeError with
        | some e => simp [aadAppAddSaveAppInfo, hread, hw] at hrc
        | none =>
          simp only [aadAppAddSaveAppInfo, hread, hw, Bool.not_true,
            Bool.false_eq_true, if_false, Option.some.injEq] at hrc
          subst hrc
          simp [existingApps, hread]

/-- C6 amended witness: saving an appId already registered through app-get
performs no write, and a fresh appId is appended after the existing records
by both writers. -/
theorem save_merge_amended_witness :
    (aadAppGetSaveAppInfo true { appId := "a1", displayName := "N1" }
      { fileExists := true,
        readOutcome := ReadOutcome.parsed
          { apps := some [{ appId := "a1", name := "N1" }] },
        writeError := none }).written = none ∧
    (existingApps
      { fileExists := true,
        readOutcome := ReadOutcome.parsed
          { apps := some [{ appId := "a1", name := "N1" }] },
        writeError := none }).any (fun a => a.appId == "a1") = true := by
  constructor
  · exact (save_merge_amended true { appId := "a1", displayName := "N1" } ()
      "a1" "N1"
      { fileExists := true,
        readOutcome := ReadOutcome.parsed
          { apps := some [{ appId := "a1", name := "N1" }] },
        writeError := none }).2.1 (by decide)
  · decide

theorem aadAppGetSaveAppInfo_result (save : Bool) (appInfo : Application)
    (env : SaveEnv) : (aadAppGetSaveAppInfo save appInfo env).result = appInfo := by
  cases hs : save with
  | false => simp [aadAppGetSaveAppInfo]
  | true =>
    cases hread : readM365Rc env with
    | error e => simp [aadAppGetSaveAppInfo, hread]
    | ok rc0 =>
      by_cases hany : (rc0.apps.getD []).any (fun a => a.appId == appInfo.appId) = true
      · simp [aadAppGetSaveAppInfo, hread, hany]
      · cases hw : env.writeError with
        | none => simp [aadAppGetSaveAppInfo, hread, hany, hw]
        | some e => simp [aadAppGetSaveAppInfo, hread, hany, hw]

theorem aadAppAddSaveAppInfo_result {α : Type} (save : Bool) (b : α)
    (appId appName : String) (env : SaveEnv) :
    (aadAppAddSaveAppInfo save b appId appName env).result = b := by
  cases hs : save with
  | false => simp [aadAppAddSaveAppInfo]
  | true =>
    cases hread : readM365Rc env with
    | error e => simp [aadAppAddSaveAppInfo, hread]
    | ok rc0 =>
      cases hw : env.writeError with
      | none => simp [aadAppAddSaveAppInfo, hread, hw]
      | some e => simp [aadAppAddSaveAppInfo, hread, hw]

/-- Result and diagnostic channels of one app-get invocation: result-channel
payloads, diagnostic warnings, and the final outcome. -/
structure AppGetTrace where
  logs : List Application
  warnings : List String
  outcome : Except String Unit

/-- AadAppGetCommand.commandAction, app-get.ts lines 79-89: resolve the app
object id, fetch the app, run the optional save step, and log the app on the
result channel; save-step warnings go to the diagnostic channel only. -/
def aadAppGetCommandAction (opts : AadAppGetOptions) (response : List String)
    (getAppInfo : String → Except String Application) (env : SaveEnv) : AppGetTrace :=
  match getAppObjectId opts response with
  | Except.error e => { logs := [], warnings := [], outcome := Except.error e }
  | Except.ok objId =>
    match getAppInfo objId with
    | Except.error e => { logs := [], warnings := [], outcome := Except.error e }
    | Except.ok appInfo =>
      let s := aadAppGetSaveAppInfo opts.save appInfo env
      { logs := [s.result], warnings := s.warnings, outcome := Except.ok () }

/-- C7: the save step never fails the invocation. Both saveAppInfo
implementations always resolve with the unchanged appInfo; after a
successful primary lookup the invocation ends successfully with the app on
the result channel whatever the save environment does, and a read, parse or
write failure of .m365rc.json surfaces only as a diagnostic warning with no
write performed. -/
theorem save_state_warning {α : Type} (opts : AadAppGetOptions) (response : List String)
    (getAppInfo : String → Except String Application) (env : SaveEnv)
    (objId : String) (appInfo : Application) (b : α) (appId appName : String) :
    ((aadAppGetSaveAppInfo opts.save appInfo env).result = appInfo) ∧
    ((aadAppAddSaveAppInfo opts.save b appId appName env).result = b) ∧
    (getAppObjectId opts response = Except.ok objId →
      getAppInfo objId = Except.ok appInfo →
      (aadAppGetCommandAction opts response getAppInfo env).outcome = Except.ok () ∧
      (aadAppGetCommandAction opts response getAppInfo env).logs = [appInfo] ∧
      (aadAppGetCommandAction opts response getAppInfo env).warnings =
        (aadAppGetSaveAppInfo opts.save appInfo env).warnings) ∧
    (opts.save = true → env.fileExists = true →
      ∀ e, env.readOutcome = ReadOutcome.failure e →
      (aadAppGetSaveAppInfo opts.save appInfo env).warnings = [readWarnMsg e] ∧
      (aadAppGetSaveAppInfo opts.save appInfo env).written = none) ∧
    (opts.save = true → ∀ rc0, readM365Rc env = Except.ok rc0 →
      (rc0.apps.getD []).any (fun a => a.appId == appInfo.appId) = false →
      ∀ e, env.writeError = some e →
      (aadAppGetSaveAppInfo opts.save appInfo env).warnings = [writeWarnMsg e] ∧
      (aadAppGetSaveAppInfo opts.save appInfo env).written = none) := by
  refine ⟨aadAppGetSaveAppInfo_result opts.save appInfo env,
    aadAppAddSaveAppInfo_result opts.save b appId appName env, ?_, ?_, ?_⟩
  · intro h1 h2
    refine ⟨?_, ?_, ?_⟩ <;>
      simp [aadAppGetCommandAction, h1, h2, aadAppGetSaveAppInfo_result]
  · intro hs hfe e hro
    have hread : readM365Rc env = Except.error e := by
      simp [readM365Rc, hfe, hro]
    constructor <;> simp [aadAppGetSaveAppInfo, hs, hread]
  · intro hs rc0 hread hany e hw
    constructor <;> simp [aadAppGetSaveAppInfo, hs, hread, hany, hw]

/-- C7 witness: a concrete invocation whose primary lookup succeeds and whose
save step hits a write failure still ends successfully, with the app on the
result channel and the write warning on the diagnostic channel. -/
theorem save_state_warning_witness :
    (aadAppGetCommandAction
      { appId := none, objectId := some "o1", name := none, save := true } []
      (fun _ => Except.ok { appId := "a1", displayName := "N1" })
      { fileExists := false, readOutcome := ReadOutcome.emptyFile,
        writeError := some "ENOSPC: no space left on device" }).outcome =
      Except.ok () ∧
    (aadAppGetSaveAppInfo true { appId := "a1", displayName := "N1" }
      { fileExists := false, readOutcome := ReadOutcome.emptyFile,
        writeError := some "ENOSPC: no space left on device" }).warnings =
      [writeWarnMsg "ENOSPC: no space left on device"] := by
  constructor
  · exact ((save_state_warning
      { appId := none, objectId := some "o1", name := none, save := true } []
      (fun _ => Except.ok { appId := "a1", displayName := "N1" })
      { fileExists := false, readOutcome := ReadOutcome.emptyFile,
        writeError := some "ENOSPC: no space left on device" }
      "o1" { appId := "a1", displayName := "N1" } () "x" "y").2.2.1 rfl rfl).1
  · exact ((save_state_warning
      { appId := none, objectId := some "o1", name := none, save := true } []
      (fun _ => Except.ok { appId := "a1", displayName := "N1" })
      { fileExists := false, readOutcome := ReadOutcome.emptyFile,
        writeError := some "ENOSPC: no space left on device" }
      "o1" { appId := "a1", displayName := "N1" } () "x" "y").2.2.2.2
      rfl { apps := none } rfl (by decide)
      "ENOSPC: no space left on device" rfl).1

/-- The .m365rc.json file as a value: absent, existing but unreadable or
unparseable (the blob stands for the raw bytes), or holding the serialized
form of a parsed structure. Since JSON serialization of a fixed structure is
deterministic, equality of these values is byte-for-byte file equality. -/
inductive M365File where
  | absent
  | unparseable (blob : String)
  | stored (rc : M365Rc)
deriving DecidableEq

/-- The save environment a given file state induces, with writes succeeding. -/
def envOfFile : M365File → SaveEnv
  | M365File.absent =>
    { fileExists := false, readOutcome := ReadOutcome.emptyFile, writeError := none }
  | M365File.unparseable b =>
    { fileExists := true, readOutcome := ReadOutcome.failure b, writeError := none }
  | M365File.stored rc =>
    { fileExists := true, readOutcome := ReadOutcome.parsed rc, writeError := none }

/-- The file state after one app-get save step with the save flag: the
written contents when a write happened, the unchanged file otherwise. -/
def applySave (f : M365File) (appInfo : Application) : M365File :=
  match (aadAppGetSaveAppInfo true appInfo (envOfFile f)).written with
  | some rc => M365File.stored rc
  | none => f

/-- Does the stored file contain a record with the given appId? -/
def fileHasApp (f : M365File) (appId : String) : Bool :=
  match f with
  | M365File.stored rc => (rc.apps.getD []).any (fun a => a.appId == appId)
  | _ => false

/-- C10: when the file already registers the appId the save step performs no
write and leaves the file unchanged, and saving the same app twice always
yields the same file contents as saving it once. -/
theorem save_idempotent (f : M365File) (appInfo : Application) :
    (fileHasApp f appInfo.appId = true →
      (aadAppGetSaveAppInfo true appInfo (envOfFile f)).written = none ∧
      applySave f appInfo = f) ∧
    applySave (applySave f appInfo) appInfo = applySave f appInfo := by
  cases f with
  | absent =>
    constructor
    · intro h
      exact nomatch h
    · simp [applySave, aadAppGetSaveAppInfo, envOfFile, readM365Rc]
  | unparseable b =>
    constructor
    · intro h
      exact nomatch h
    · simp [applySave, aadAppGetSaveAppInfo, envOfFile, readM365Rc]
  | stored rc =>
    have hread : readM365Rc (envOfFile (M365File.stored rc)) = Except.ok rc := by
      simp [envOfFile, readM365Rc]
    by_cases hany : (rc.apps.getD []).any (fun a => a.appId == appInfo.appId) = true
    · have hw : (aadAppGetSaveAppInfo true appInfo
          (envOfFile (M365File.stored rc))).written = none := by
        simp [aadAppGetSaveAppInfo, hread, hany]
      have happ : applySave (M365File.stored rc) appInfo = M365File.stored rc := by
        simp [applySave, hw]
      exact ⟨fun _ => ⟨hw, happ⟩, by rw [happ, happ]⟩
    · have hw : (aadAppGetSaveAppInfo true appInfo
          (envOfFile (M365File.stored rc))).written =
          some { apps := some (rc.apps.getD [] ++
            [{ appId := appInfo.appId, name := appInfo.displayName }]) } := by
        have hnex : ¬ ∃ x ∈ rc.apps.getD [], x.appId = appInfo.appId := by
          simpa using hany
        simp [aadAppGetSaveAppInfo, envOfFile, readM365Rc, hnex]
      have happ : applySave (M365File.stored rc) appInfo =
          M365File.stored { apps := some (rc.apps.getD [] ++
            [{ appId := appInfo.appId, name := appInfo.displayName }]) } := by
        simp [applySave, hw]
      constructor
      · intro h
        exact absurd h hany
      · rw [happ]
        have hex : ∃ x ∈ rc.apps.getD [] ++
            [{ appId := appInfo.appId, name := appInfo.displayName : M365App }],
            x.appId = appInfo.appId :=
          ⟨{ appId := appInfo.appId, name := appInfo.displayName }, by simp, rfl⟩
        simp [applySave, aadAppGetSaveAppInfo, envOfFile, readM365Rc, hex]

/-- C10 witness: a concrete file that already registers the appId is left
unchanged by the save step. -/
theorem save_idempotent_witness :
    (aadAppGetSaveAppInfo true { appId := "a1", displayName := "N1" }
      (envOfFile (M365File.stored { apps := some [{ appId := "a1", name := "Old" }] }))).written =
      none ∧
    applySave (M365File.stored { apps := some [{ appId := "a1", name := "Old" }] })
      { appId := "a1", displayName := "N1" } =
      M365File.stored { apps := some [{ appId := "a1", name := "Old" }] } := by
  exact (save_idempotent
    (M365File.stored { apps := some [{ appId := "a1", name := "Old" }] })
    { appId := "a1", displayName := "N1" }).1 (by decide)

/-- The outcome of JSON.parse on a manifest string that the app-add validator
inspects: whether the parsed object has a truthy name property. -/
structure ManifestData where
  hasName : Bool

/-- The options of AadAppAddCommand consumed by its validator,
app-add.ts lines 187-249. -/
structure AadAppAddOptions where
  name : Option String
  manifest : Option String
  platform : Option String
  redirectUris : Option String
  certificateFile : Option String
  certificateBase64Encoded : Option String
  certificateDisplayName : Option String
  scopeName : Option String
  uri : Option String
  scopeAdminConsentDescription : Option String
  scopeAdminConsentDisplayName : Option String
  scopeConsentBy : Option String

/-- AadAppAddCommand.aadApplicationPlatform. -/
def aadApplicationPlatform : List String := ["spa", "web", "publicClient"]

/-- AadAppAddCommand.aadAppScopeConsentBy. -/
def aadAppScopeConsentBy : List String := ["admins", "adminsAndUsers"]

/-- The single validator registered by AadAppAddCommand, app-add.ts lines
187-249. The return type has an explicit rejection channel so that a raised
exception would be visible as Except.error; the filesystem check is the
non-throwing fs.existsSync, and the JSON.parse of the manifest (the oracle
parseManifest, Except.error being a parse throw) is wrapped in the same
try/catch as the source, which converts the throw into a failure string.
Every failed check returns an ok-wrapped failure string; a passing run
returns ok none. -/
def aadAppAddValidator (opts : AadAppAddOptions) (fileExistsAt : String → Bool)
    (parseManifest : String → Except String ManifestData) :
    Except String (Option String) :=
  if !opts.manifest.isSome && !opts.name.isSome then
    Except.ok (some "Specify either the name of the app to create or the manifest")
  else if opts.platform.isSome &&
      !(aadApplicationPlatform.contains (optStr opts.platform)) then
    Except.ok (some (optStr opts.platform ++
      " is not a valid value for platform. Allowed values are " ++
      joinSep ", " aadApplicationPlatform))
  else if opts.redirectUris.isSome && !opts.platform.isSome then
    Except.ok (some "When you specify redirectUris you also need to specify platform")
  else if opts.certificateFile.isSome && opts.certificateBase64Encoded.isSome then
    Except.ok (some "Specify either certificateFile or certificateBase64Encoded but not both")
  else if opts.certificateDisplayName.isSome && !opts.certificateFile.isSome &&
      !opts.certificateBase64Encoded.isSome then
    Except.ok (some ("When you specify certificateDisplayName you also need to " ++
      "specify certificateFile or certificateBase64Encoded"))
  else if opts.certificateFile.isSome && !(fileExistsAt (optStr opts.certificateFile)) then
    Except.ok (some "Certificate file not found")
  else if opts.scopeName.isSome && !opts.uri.isSome then
    Except.ok (some "When you specify scopeName you also need to specify uri")
  else if opts.scopeName.isSome && !opts.scopeAdminConsentDescription.isSome then
    Except.ok (some "When you specify scopeName you also need to specify scopeAdminConsentDescription")
  else if opts.scopeName.isSome && !opts.scopeAdminConsentDisplayName.isSome then
    Except.ok (some "When you specify scopeName you also need to specify scopeAdminConsentDisplayName")
  else if opts.scopeConsentBy.isSome &&
      !(aadAppScopeConsentBy.contains (optStr opts.scopeConsentBy)) then
    Except.ok (some (optStr opts.scopeConsentBy ++
      " is not a valid value for scopeConsentBy. Allowed values are " ++
      joinSep ", " aadAppScopeConsentBy))
  else
    match opts.manifest with
    | some m =>
      match parseManifest m with
      | Except.error e =>
        Except.ok (some ("Error while parsing the specified manifest: " ++ e))
      | Except.ok d =>
        if !opts.name.isSome && !d.hasName then
          Except.ok (some ("Specify the name of the app to create either through " ++
            "the \x27name\x27 option or the \x27name\x27 property in the manifest"))
        else Except.ok none
    | none => Except.ok none

/-- C8: the app-add validator never rejects, whatever the options, the
filesystem and the manifest parser do: every run returns an ok-wrapped
verdict. In particular a missing certificate file and an unparseable
manifest string both become failure strings, not raised errors. -/
theorem validator_never_raises (opts : AadAppAddOptions)
    (fileExistsAt : String → Bool)
    (parseManifest : String → Except String ManifestData) :
    (∃ r, aadAppAddValidator opts fileExistsAt parseManifest = Except.ok r) ∧
    (∀ n f,
      opts =
        { name := some n, manifest := none, platform := none,
          redirectUris := none, certificateFile := some f,
          certificateBase64Encoded := none, certificateDisplayName := none,
          scopeName := none, uri := none, scopeAdminConsentDescription := none,
          scopeAdminConsentDisplayName := none, scopeConsentBy := none } →
      fileExistsAt f = false →
      aadAppAddValidator opts fileExistsAt parseManifest =
        Except.ok (some "Certificate file not found")) ∧
    (∀ n m e,
      opts =
        { name := some n, manifest := some m, platform := none,
          redirectUris := none, certificateFile := none,
          certificateBase64Encoded := none, certificateDisplayName := none,
          scopeName := none, uri := none, scopeAdminConsentDescription := none,
          scopeAdminConsentDisplayName := none, scopeConsentBy := none } →
      parseManifest m = Except.error e →
      aadAppAddValidator opts fileExistsAt parseManifest =
        Except.ok (some ("Error while parsing the specified manifest: " ++ e))) := by
  refine ⟨?_, ?_, ?_⟩
  · unfold aadAppAddValidator
    by_cases h1 : (!opts.manifest.isSome && !opts.name.isSome) = true
    · rw [if_pos h1]; exact ⟨_, rfl⟩
    rw [if_neg h1]
    by_cases h2 : (opts.platform.isSome &&
      !(aadApplicationPlatform.contains (optStr opts.platform))) = true
    · rw [if_pos h2]; exact ⟨_, rfl⟩
    rw [if_neg h2]
    by_cases h3 : (opts.redirectUris.isSome && !opts.platform.isSome) = true
    · rw [if_pos h3]; exact ⟨_, rfl⟩
    rw [if_neg h3]
    by_cases h4 : (opts.certificateFile.isSome &&
      opts.certificateBase64Encoded.isSome) = true
    · rw [if_pos h4]; exact ⟨_, rfl⟩
    rw [if_neg h4]
    by_cases h5 : (opts.certificateDisplayName.isSome && !opts.certificateFile.isSome &&
      !opts.certificateBase64Encoded.isSome) = true
    · rw [if_pos h5]; exact ⟨_, rfl⟩
    rw [if_neg h5]
    by_cases h6 : (opts.certificateFile.isSome &&
      !(fileExistsAt (optStr opts.certificateFile))) = true
    · rw [if_pos h6]; exact ⟨_, rfl⟩
    rw [if_neg h6]
    by_cases h7 : (opts.scopeName.isSome && !opts.uri.isSome) = true
    · rw [if_pos h7]; exact ⟨_, rfl⟩
    rw [if_neg h7]
    by_cases h8 : (opts.scopeName.isSome &&
      !opts.scopeAdminConsentDescription.isSome) = true
    · rw [if_pos h8]; exact ⟨_, rfl⟩
    rw [if_neg h8]
    by_cases h9 : (opts.scopeName.isSome &&
      !opts.scopeAdminConsentDisplayName.isSome) = true
    · rw [if_pos h9]; exact ⟨_, rfl⟩
    rw [if_neg h9]
    by_cases h10 : (opts.scopeConsentBy.isSome &&
      !(aadAppScopeConsentBy.contains (optStr opts.scopeConsentBy))) = true
    · rw [if_pos h10]; exact ⟨_, rfl⟩
    rw [if_neg h10]
    cases hm : opts.manifest with
    | none => exact ⟨_, rfl⟩
    | some m =>
      dsimp only
      cases hp : parseManifest m with
      | error e => exact ⟨_, rfl⟩
      | ok d =>
        dsimp only
        by_cases h11 : (!opts.name.isSome && !d.hasName) = true
        · rw [if_pos h11]; exact ⟨_, rfl⟩
        · rw [if_neg h11]; exact ⟨_, rfl⟩
  · intro n f hopts hfs
    subst hopts
    have h2 : fileExistsAt (optStr (some f)) = false := hfs
    simp only [aadAppAddValidator, h2, Option.isSome_some, Option.isSome_none,
      Bool.not_true, Bool.not_false, Bool.and_true, Bool.and_false,
      Bool.true_and, Bool.false_and, Bool.false_eq_true, if_false, if_true]
  · intro n m e hopts hp
    subst hopts
    simp only [aadAppAddValidator, hp, Option.isSome_some, Option.isSome_none,
      Bool.not_true, Bool.not_false, Bool.and_true, Bool.and_false,
      Bool.true_and, Bool.false_and, Bool.false_eq_true, if_false, if_true]

/-- C8 witness: a concrete missing certificate file and a concrete manifest
parse throw both come back as ok-wrapped failure strings. -/
theorem validator_never_raises_witness :
    aadAppAddValidator
      { name := some "My app", manifest := none, platform := none,
        redirectUris := none, certificateFile := some "missing.cer",
        certificateBase64Encoded := none, certificateDisplayName := none,
        scopeName := none, uri := none, scopeAdminConsentDescription := none,
        scopeAdminConsentDisplayName := none, scopeConsentBy := none }
      (fun _ => false) (fun _ => Except.error "Unexpected token") =
      Except.ok (some "Certificate file not found") ∧
    aadAppAddValidator
      { name := some "My app", manifest := some "not json", platform := none,
        redirectUris := none, certificateFile := none,
        certificateBase64Encoded := none, certificateDisplayName := none,
        scopeName := none, uri := none, scopeAdminConsentDescription := none,
        scopeAdminConsentDisplayName := none, scopeConsentBy := none }
      (fun _ => false) (fun _ => Except.error "Unexpected token") =
      Except.ok (some ("Error while parsing the specified manifest: " ++
        "Unexpected token")) := by
  constructor
  · exact (validator_never_raises
      { name := some "My app", manifest := none, platform := none,
        redirectUris := none, certificateFile := some "missing.cer",
        certificateBase64Encoded := none, certificateDisplayName := none,
        scopeName := none, uri := none, scopeAdminConsentDescription := none,
        scopeAdminConsentDisplayName := none, scopeConsentBy := none }
      (fun _ => false) (fun _ => Except.error "Unexpected token")).2.1
      "My app" "missing.cer" rfl rfl
  · exact (validator_never_raises
      { name := some "My app", manifest := some "not json", platform := none,
        redirectUris := none, certificateFile := none,
        certificateBase64Encoded := none, certificateDisplayName := none,
        scopeName := none, uri := none, scopeAdminConsentDescription := none,
        scopeAdminConsentDisplayName := none, scopeConsentBy := none }
      (fun _ => false) (fun _ => Except.error "Unexpected token")).2.2
      "My app" "not json" "Unexpected token" rfl rfl

/-- One entry of requiredResourceAccess (the source field type is renamed
accessType here, Scope or Role). -/
structure ResourceAccess where
  id : String
  accessType : String
deriving DecidableEq

/-- One entry of the appPermissions accumulator of AadAppAddCommand. -/
structure AppPermission where
  resourceId : String
  resourceAccess : List ResourceAccess
  scope : List String
deriving DecidableEq

/-- One consent sub-operation request issued by grantAdminConsent: an OAuth2
permission grant or an appRole assignment. -/
inductive ConsentRequest where
  | oauthGrant (spObjectId resourceId scope : String)
  | roleAssignment (spObjectId resourceId appRoleId : String)
deriving DecidableEq

/-- The task list built by AadAppAddCommand.grantAdminConsent, app-add.ts
lines 356-374: per permission, one OAuth2 grant when the scope list is
nonempty (scopes joined with a space), then one appRole assignment per
resourceAccess entry of accessType Role, in source order. -/
def grantAdminConsentTasks (spId : String) (perms : List AppPermission) :
    List ConsentRequest :=
  (perms.map (fun p =>
    (if 0 < p.scope.length then
      [ConsentRequest.oauthGrant spId p.resourceId (joinSep " " p.scope)]
    else []) ++
    ((p.resourceAccess.filter (fun a => a.accessType == "Role")).map
      (fun a => ConsentRequest.roleAssignment spId p.resourceId a.id)))).flatten

instance : DecidableEq (Except String Unit) := fun a b =>
  match a, b with
  | Except.ok u, Except.ok v => isTrue (by cases u; cases v; rfl)
  | Except.error e1, Except.error e2 =>
    if h : e1 = e2 then isTrue (by rw [h])
    else isFalse (fun hc => h (by cases hc; rfl))
  | Except.ok _, Except.error _ => isFalse (fun hc => nomatch hc)
  | Except.error _, Except.ok _ => isFalse (fun hc => nomatch hc)

/-- One launched sub-operation: its request, the time at which it settles,
and its result. A launched operation always runs to completion and commits
its own side effect at its settle time; there is no cancellation primitive. -/
structure SubOp where
  req : ConsentRequest
  time : Nat
  result : Except String Unit
deriving DecidableEq

/-- One step of the JS Promise.all rejection race: keep the
earliest-settling rejection seen so far (ties keep the earlier task). -/
def earlierRejection (acc : Option SubOp) (t : SubOp) : Option SubOp :=
  match t.result with
  | Except.ok _ => acc
  | Except.error _ =>
    match acc with
    | none => some t
    | some b => if t.time < b.time then some t else some b

/-- The earliest-settling rejected sub-operation, if any. -/
def firstRejection (ts : List SubOp) : Option SubOp :=
  ts.foldl earlierRejection none

/-- When every sub-operation fulfills, Promise.all fulfills once the last
one has settled. -/
def maxCompletionTime (ts : List SubOp) : Nat :=
  ts.foldl (fun m t => max m t.time) 0

/-- JS Promise.all over the launched sub-operations: with no rejection it
fulfills at the last completion time; otherwise it rejects as soon as the
first rejection settles, with that rejection, without waiting for the
remaining operations (which still run to completion). -/
def promiseAll (ts : List SubOp) : Nat × Except String Unit :=
  match firstRejection ts with
  | some t => (t.time, t.result)
  | none => (maxCompletionTime ts, Except.ok ())

/-- Observable trace of grantAdminConsent: the sub-operations launched (all
of which run to completion and commit their effects), the time the stage
settles, and its outcome. -/
structure GrantTrace where
  launched : List SubOp
  settleTime : Nat
  outcome : Except String Unit

/-- AadAppAddCommand.grantAdminConsent, app-add.ts lines 345-381: without
the flag or with no accumulated permissions nothing happens; otherwise all
consent tasks are launched at once (none waits for another) and the stage
awaits Promise.all over them. runOp gives each request its settle time and
result. -/
def grantAdminConsent (adminConsent : Bool) (perms : List AppPermission)
    (spId : String) (runOp : ConsentRequest → Nat × Except String Unit) : GrantTrace :=
  if !adminConsent || perms.isEmpty then
    { launched := [], settleTime := 0, outcome := Except.ok () }
  else
    let ts := (grantAdminConsentTasks spId perms).map
      (fun r => { req := r, time := (runOp r).1, result := (runOp r).2 : SubOp })
    let p := promiseAll ts
    { launched := ts, settleTime := p.1, outcome := p.2 }

theorem earlierRejection_ok (acc : Option SubOp) (t : SubOp) (u : Unit)
    (h : t.result = Except.ok u) : earlierRejection acc t = acc := by
  simp [earlierRejection, h]

theorem earlierRejection_error_none (t : SubOp) (e : String)
    (h : t.result = Except.error e) : earlierRejection none t = some t := by
  simp [earlierRejection, h]

theorem earlierRejection_error_lt (t b : SubOp) (e : String)
    (h : t.result = Except.error e) (hlt : t.time < b.time) :
    earlierRejection (some b) t = some t := by
  simp [earlierRejection, h, hlt]

theorem earlierRejection_error_ge (t b : SubOp) (e : String)
    (h : t.result = Except.error e) (hlt : ¬ t.time < b.time) :
    earlierRejection (some b) t = some b := by
  simp [earlierRejection, h, hlt]

theorem foldl_earlierRejection_all_ok (ts : List SubOp) :
    ∀ acc, (∀ t ∈ ts, t.result = Except.ok ()) →
      ts.foldl earlierRejection acc = acc := by
  induction ts with
  | nil => intro acc _; rfl
  | cons t rest ih =>
    intro acc h
    have ht : t.result = Except.ok () := h t (List.mem_cons_self t rest)
    rw [List.foldl_cons, earlierRejection_ok acc t () ht]
    exact ih acc (fun x hx => h x (List.mem_cons_of_mem t hx))

theorem foldl_earlierRejection_mem (ts : List SubOp) :
    ∀ acc t0, ts.foldl earlierRejection acc = some t0 →
      t0 ∈ ts ∨ acc = some t0 := by
  induction ts with
  | nil => intro acc t0 h; exact Or.inr h
  | cons t rest ih =>
    intro acc t0 h
    rw [List.foldl_cons] at h
    rcases ih (earlierRejection acc t) t0 h with hmem | hacc
    · exact Or.inl (List.mem_cons_of_mem t hmem)
    · cases hres : t.result with
      | ok u =>
        rw [earlierRejection_ok acc t u hres] at hacc
        exact Or.inr hacc
      | error e =>
        cases hac : acc with
        | none =>
          rw [hac, earlierRejection_error_none t e hres] at hacc
          cases hacc
          exact Or.inl (List.mem_cons_self t rest)
        | some b =>
          by_cases hlt : t.time < b.time
          · rw [hac, earlierRejection_error_lt t b e hres hlt] at hacc
            cases hacc
            exact Or.inl (List.mem_cons_self t rest)
          · rw [hac, earlierRejection_error_ge t b e hres hlt] at hacc
            exact Or.inr hacc

theorem foldl_earlierRejection_isError (ts : List SubOp) :
    ∀ acc t0, (∀ b, acc = some b → ∃ e, b.result = Except.error e) →
      ts.foldl earlierRejection acc = some t0 →
      ∃ e, t0.result = Except.error e := by
  induction ts with
  | nil => intro acc t0 hinv h; exact hinv t0 h
  | cons t rest ih =>
    intro acc t0 hinv h
    rw [List.foldl_cons] at h
    refine ih (earlierRejection acc t) t0 ?_ h
    intro b hb
    cases hres : t.result with
    | ok u =>
      rw [earlierRejection_ok acc t u hres] at hb
      exact hinv b hb
    | error e =>
      cases hac : acc with
      | none =>
        rw [hac, earlierRejection_error_none t e hres] at hb
        cases hb
        exact ⟨e, hres⟩
      | some b0 =>
        by_cases hlt : t.time < b0.time
        · rw [hac, earlierRejection_error_lt t b0 e hres hlt] at hb
          cases hb
          exact ⟨e, hres⟩
        · rw [hac, earlierRejection_error_ge t b0 e hres hlt] at hb
          injection hb with hb2
          exact hb2 ▸ hinv b0 hac

theorem foldl_earlierRejection_min (ts : List SubOp) :
    ∀ acc t0, ts.foldl earlierRejection acc = some t0 →
      (∀ t ∈ ts, (∃ e, t.result = Except.error e) → t0.time ≤ t.time) ∧
      (∀ b, acc = some b → t0.time ≤ b.time) := by
  induction ts with
  | nil =>
    intro acc t0 h
    refine ⟨fun t ht _ => absurd ht (List.not_mem_nil t), fun b hb => ?_⟩
    have hacc : acc = some t0 := h
    rw [hacc] at hb
    cases hb
    exact Nat.le_refl _
  | cons t rest ih =>
    intro acc t0 h
    rw [List.foldl_cons] at h
    have hrest := ih (earlierRejection acc t) t0 h
    have hstep : ∀ b, earlierRejection acc t = some b → t0.time ≤ b.time := hrest.2
    constructor
    · intro x hx hxe
      rcases List.mem_cons.mp hx with hxt | hxr
      · subst hxt
        rcases hxe with ⟨e, he⟩
        cases hac : acc with
        | none => exact hstep x (by rw [hac] at *; exact earlierRejection_error_none x e he)
        | some b =>
          by_cases hlt : x.time < b.time
          · exact hstep x (by rw [hac] at *; exact earlierRejection_error_lt x b e he hlt)
          · have hb : t0.time ≤ b.time :=
              hstep b (by rw [hac] at *; exact earlierRejection_error_ge x b e he hlt)
            exact Nat.le_trans hb (Nat.le_of_not_lt hlt)
      · exact hrest.1 x hxr hxe
    · intro b0 hb0
      cases hres : t.result with
      | ok u => exact hstep b0 (by rw [earlierRejection_ok acc t u hres]; exact hb0)
      | error e =>
        by_cases hlt : t.time < b0.time
        · have ht : t0.time ≤ t.time :=
            hstep t (by rw [hb0] at *; exact earlierRejection_error_lt t b0 e hres hlt)
          exact Nat.le_trans ht (Nat.le_of_lt hlt)
        · exact hstep b0 (by rw [hb0] at *; exact earlierRejection_error_ge t b0 e hres hlt)

theorem foldl_earlierRejection_some_ne_none (l : List SubOp) :
    ∀ c : SubOp, l.foldl earlierRejection (some c) ≠ none := by
  induction l with
  | nil => intro c hcon; cases hcon
  | cons y ys ihy =>
    intro c hcon
    rw [List.foldl_cons] at hcon
    cases hres : y.result with
    | ok u =>
      rw [earlierRejection_ok (some c) y u hres] at hcon
      exact ihy c hcon
    | error e =>
      by_cases hlt : y.time < c.time
      · rw [earlierRejection_error_lt y c e hres hlt] at hcon
        exact ihy y hcon
      · rw [earlierRejection_error_ge y c e hres hlt] at hcon
        exact ihy c hcon

theorem foldl_earlierRejection_none (ts : List SubOp) :
    ∀ acc, ts.foldl earlierRejection acc = none →
      ∀ t ∈ ts, t.result = Except.ok () := by
  induction ts with
  | nil => intro acc _ t ht; exact absurd ht (List.not_mem_nil t)
  | cons t rest ih =>
    intro acc h x hx
    rw [List.foldl_cons] at h
    rcases List.mem_cons.mp hx with hxt | hxr
    · subst hxt
      cases hres : x.result with
      | ok u => cases u; rfl
      | error e =>
        exfalso
        have hstep : ∃ c, earlierRejection acc x = some c := by
          cases hac : acc with
          | none => exact ⟨x, earlierRejection_error_none x e hres⟩
          | some b =>
            by_cases hlt : x.time < b.time
            · exact ⟨x, earlierRejection_error_lt x b e hres hlt⟩
            · exact ⟨b, earlierRejection_error_ge x b e hres hlt⟩
        rcases hstep with ⟨c, hc⟩
        rw [hc] at h
        exact foldl_earlierRejection_some_ne_none rest c h
    · exact ih (earlierRejection acc t) h x hxr

theorem foldl_max_init_le (ts : List SubOp) :
    ∀ init : Nat, init ≤ ts.foldl (fun m t => max m t.time) init := by
  induction ts with
  | nil => intro init; exact Nat.le_refl init
  | cons t rest ih =>
    intro init
    rw [List.foldl_cons]
    exact Nat.le_trans (Nat.le_max_left init t.time) (ih (max init t.time))

theorem time_le_maxCompletionTime (ts : List SubOp) :
    ∀ t ∈ ts, t.time ≤ maxCompletionTime ts := by
  rw [maxCompletionTime]
  generalize (0 : Nat) = init
  induction ts generalizing init with
  | nil => intro t ht; exact absurd ht (List.not_mem_nil t)
  | cons x rest ih =>
    intro t ht
    rw [List.foldl_cons]
    rcases List.mem_cons.mp ht with hxt | hxr
    · subst hxt
      exact Nat.le_trans (Nat.le_max_right init t.time)
        (foldl_max_init_le rest (max init t.time))
    · exact ih (max init x.time) t hxr

def exPerms : List AppPermission :=
  [{ resourceId := "r1", resourceAccess := [], scope := ["S1.Read"] },
   { resourceId := "r2", resourceAccess := [], scope := ["S2.Read"] },
   { resourceId := "r3", resourceAccess := [], scope := ["S3.Read"] }]

def exRunOp : ConsentRequest → Nat × Except String Unit := fun r =>
  match r with
  | ConsentRequest.oauthGrant _ rid _ =>
    if rid = "r2" then (1, Except.error "Insufficient privileges to complete the operation")
    else if rid = "r1" then (5, Except.ok ()) else (7, Except.ok ())
  | ConsentRequest.roleAssignment _ _ _ => (0, Except.ok ())

/-- C9 counterexample: a fan-out of three consent grants whose second
rejects at time 1 (the others complete at times 5 and 7) fails with the
second grant's failure — but the stage settles at time 1, before the other
launched operations have completed, so the action does not wait until every
sub-operation has completed or failed. -/
theorem fanout_wait_counterexample :
    (grantAdminConsent true exPerms "sp1" exRunOp).outcome =
      Except.error "Insufficient privileges to complete the operation" ∧
    (grantAdminConsent true exPerms "sp1" exRunOp).settleTime = 1 ∧
    ¬ (∀ t ∈ (grantAdminConsent true exPerms "sp1" exRunOp).launched,
        t.time ≤ (grantAdminConsent true exPerms "sp1" exRunOp).settleTime) := by
  refine ⟨rfl, rfl, ?_⟩
  decide

/-- C9 amended: all consent sub-operations are launched together and each
runs to completion (its effect is committed at its own settle time,
cancelled by nothing); when all fulfil, the stage settles only after the
last completion; when any rejects, the stage fails with the
earliest-settling rejection as soon as that rejection settles — possibly
before sibling operations have completed, whose committed effects are not
rolled back. -/
theorem fanout_first_failure (adminConsent : Bool) (perms : List AppPermission)
    (spId : String) (runOp : ConsentRequest → Nat × Except String Unit)
    (ts : List SubOp) :
    (adminConsent = true → perms ≠ [] →
      (grantAdminConsent adminConsent perms spId runOp).launched =
        (grantAdminConsentTasks spId perms).map
          (fun r => { req := r, time := (runOp r).1, result := (runOp r).2 })) ∧
    ((∀ t ∈ ts, t.result = Except.ok ()) →
      promiseAll ts = (maxCompletionTime ts, Except.ok ())) ∧
    (∀ t ∈ ts, t.time ≤ maxCompletionTime ts) ∧
    (∀ t0, firstRejection ts = some t0 →
      t0 ∈ ts ∧ (∃ e, t0.result = Except.error e) ∧
      promiseAll ts = (t0.time, t0.result) ∧
      (∀ t ∈ ts, (∃ e, t.result = Except.error e) → t0.time ≤ t.time)) ∧
    ((∃ t ∈ ts, ∃ e, t.result = Except.error e) →
      ∃ t0, firstRejection ts = some t0) := by
  refine ⟨?_, ?_, time_le_maxCompletionTime ts, ?_, ?_⟩
  · intro hA hP
    cases perms with
    | nil => exact absurd rfl hP
    | cons p ps => simp [grantAdminConsent, hA]
  · intro h
    have hfr : firstRejection ts = none := foldl_earlierRejection_all_ok ts none h
    simp only [promiseAll, hfr]
  · intro t0 h
    have hmem : t0 ∈ ts := by
      rcases foldl_earlierRejection_mem ts none t0 h with hm | hc
      · exact hm
      · cases hc
    have herr : ∃ e, t0.result = Except.error e :=
      foldl_earlierRejection_isError ts none t0 (fun b hb => nomatch hb) h
    have hmin := (foldl_earlierRejection_min ts none t0 h).1
    refine ⟨hmem, herr, ?_, hmin⟩
    have hfr : firstRejection ts = some t0 := h
    simp only [promiseAll, hfr]
  · intro hex
    cases hr : firstRejection ts with
    | some t0 => exact ⟨t0, rfl⟩
    | none =>
      rcases hex with ⟨t, ht, e, he⟩
      have := foldl_earlierRejection_none ts none hr t ht
      rw [this] at he
      cases he

/-- C9 amended witness: on concrete runs, all-fulfilled settles at the last
completion time and a rejected run surfaces the earliest rejection at its
settle time. -/
theorem fanout_first_failure_witness :
    promiseAll
      [{ req := ConsentRequest.oauthGrant "sp1" "r1" "S1.Read", time := 5,
         result := Except.ok () },
       { req := ConsentRequest.oauthGrant "sp1" "r3" "S3.Read", time := 7,
         result := Except.ok () }] = (7, Except.ok ()) ∧
    promiseAll
      [{ req := ConsentRequest.oauthGrant "sp1" "r1" "S1.Read", time := 5,
         result := Except.ok () },
       { req := ConsentRequest.oauthGrant "sp1" "r2" "S2.Read", time := 1,
         result := Except.error "boom" },
       { req := ConsentRequest.oauthGrant "sp1" "r3" "S3.Read", time := 7,
         result := Except.ok () }] = (1, Except.error "boom") := by
  constructor
  · exact (fanout_first_failure true [] "sp1" (fun _ => (0, Except.ok ()))
      [{ req := ConsentRequest.oauthGrant "sp1" "r1" "S1.Read", time := 5,
         result := Except.ok () },
       { req := ConsentRequest.oauthGrant "sp1" "r3" "S3.Read", time := 7,
         result := Except.ok () }]).2.1 (by decide)
  · exact ((fanout_first_failure true [] "sp1" (fun _ => (0, Except.ok ()))
      [{ req := ConsentRequest.oauthGrant "sp1" "r1" "S1.Read", time := 5,
         result := Except.ok () },
       { req := ConsentRequest.oauthGrant "sp1" "r2" "S2.Read", time := 1,
         result := Except.error "boom" },
       { req := ConsentRequest.oauthGrant "sp1" "r3" "S3.Read", time := 7,
         result := Except.ok () }]).2.2.2.1
      { req := ConsentRequest.oauthGrant "sp1" "r2" "S2.Read", time := 1,
        result := Except.error "boom" } (by decide)).2.2.1

end M365
